import Mathlib

/-!
Shallow embedding of the `e2b_sandbox_inspector` package
(`src/e2b_sandbox_inspector/schemas.py` and
`src/e2b_sandbox_inspector/async_client.py`).

Modelling conventions:
* Python `datetime` values (and `timedelta`s) are modelled as integers
  (a point on a common linear time axis), which preserves ordering,
  subtraction and `max`.
* Python `float` arithmetic in the percentage properties is modelled over
  `ℚ`; `round(x, 1)` is modelled as round-half-to-even of `x * 10`
  divided by `10`, which is Python's rounding rule for exactly
  representable values.
* Provider byte counters are natural numbers and `//` is `Nat` division,
  matching Python floor division on non-negative integers.
* The remote provider is an explicit parameter: the list of pages its
  paginator serves, the termination outcome it gives each sandbox id, the
  raw metric records it returns.
* `async` functions are sequential in the source (every call is awaited
  immediately), so they are embedded as plain functions; a Python
  exception is an `Except.error` carrying `str(e)`.
-/

namespace SandboxInspector

/-! ## Data model (`schemas.py`) -/

/-- State literal from `schemas.py` line 8: `Literal["running", "paused"]`. -/
inductive SandboxState : Type
  | running
  | paused
  deriving DecidableEq, Repr

/-- `SandboxInfo` (schemas.py lines 11-22), stored fields only. -/
structure SandboxInfo : Type where
  sandbox_id : String
  template_id : String
  name : Option String := none
  metadata : List (String × String) := []
  state : SandboxState
  started_at : ℤ
  end_at : ℤ
  cpu_count : ℤ
  memory_mb : ℤ
  deriving DecidableEq, Repr

/-- Derived `uptime` (schemas.py lines 24-28): `datetime.now(...) - started_at`.
The evaluation instant is the explicit `now` parameter. -/
def SandboxInfo.uptime (now : ℤ) (s : SandboxInfo) : ℤ :=
  now - s.started_at

/-- Derived `time_remaining` (schemas.py lines 30-35):
`max(end_at - datetime.now(...), timedelta(0))`. -/
def SandboxInfo.time_remaining (now : ℤ) (s : SandboxInfo) : ℤ :=
  max (s.end_at - now) 0

/-- Round-half-to-even on `ℚ`, the rule Python's builtin `round` applies. -/
def roundHalfEven (q : ℚ) : ℤ :=
  if q - ⌊q⌋ < 1 / 2 then ⌊q⌋
  else if 1 / 2 < q - ⌊q⌋ then ⌊q⌋ + 1
  else if Even ⌊q⌋ then ⌊q⌋ else ⌊q⌋ + 1

/-- Python `round(x, 1)`: round to one decimal place. -/
def pyRound1 (q : ℚ) : ℚ :=
  (roundHalfEven (q * 10) : ℚ) / 10

/-- `SandboxMetrics` (schemas.py lines 38-47), stored fields only. -/
structure SandboxMetrics : Type where
  cpu_count : ℤ
  cpu_pct : ℚ
  mem_total_mb : ℕ
  mem_used_mb : ℕ
  disk_total_mb : ℕ
  disk_used_mb : ℕ
  timestamp : ℤ
  deriving DecidableEq, Repr

/-- Derived `mem_pct` (schemas.py lines 49-55): `0.0` when the total is `0`,
otherwise `round((used / total) * 100, 1)`. -/
def SandboxMetrics.mem_pct (m : SandboxMetrics) : ℚ :=
  if m.mem_total_mb = 0 then 0
  else pyRound1 ((m.mem_used_mb : ℚ) / (m.mem_total_mb : ℚ) * 100)

/-- Derived `disk_pct` (schemas.py lines 57-63). -/
def SandboxMetrics.disk_pct (m : SandboxMetrics) : ℚ :=
  if m.disk_total_mb = 0 then 0
  else pyRound1 ((m.disk_used_mb : ℚ) / (m.disk_total_mb : ℚ) * 100)

/-- `Summary` (schemas.py lines 102-113). -/
structure Summary : Type where
  running_count : ℕ
  paused_count : ℕ
  total_count : ℕ
  total_cpu : ℤ
  total_memory_mb : ℤ
  oldest_sandbox_id : Option String := none
  oldest_uptime : Option ℤ := none
  newest_sandbox_id : Option String := none
  newest_uptime : Option ℤ := none
  deriving DecidableEq, Repr

/-! ## Timeout forwarding (`async_client.py` `exec` / `python`) -/

/-- Python `timeout or self.default_timeout` for `timeout : int | None`:
`or` yields the right operand when the left one is falsy (`None` or `0`). -/
def pyOrTimeout (timeout : Option ℤ) (default_timeout : ℤ) : ℤ :=
  match timeout with
  | none => default_timeout
  | some t => if t = 0 then default_timeout else t

/-- Timeout forwarded to `sandbox.commands.run` by `exec`
(async_client.py line 176). -/
def execForwardedTimeout (timeout : Option ℤ) (default_timeout : ℤ) : ℤ :=
  pyOrTimeout timeout default_timeout

/-- Timeout forwarded to `sandbox.run_code` by `python`
(async_client.py line 206). -/
def pythonForwardedTimeout (timeout : Option ℤ) (default_timeout : ℤ) : ℤ :=
  pyOrTimeout timeout default_timeout

/-! ## Lifecycle controller (`async_client.py` `kill` / `kill_all`) -/

/-- Decides whether the pattern is the first characters of the haystack. -/
def leadsWith : List Char → List Char → Bool
  | [], _ => true
  | _ :: _, [] => false
  | p :: ps, h :: t => p = h && leadsWith ps t

/-- Python `pat in hay` for strings, on character lists: contiguous
substring test. -/
def containsSub : List Char → List Char → Bool
  | [], pat => pat.isEmpty
  | h :: t, pat => leadsWith pat (h :: t) || containsSub t pat

/-- Lowercased character list of a message, `str(e).lower()` (ASCII-faithful). -/
def lowerChars (s : String) : List Char :=
  s.toList.map Char.toLower

/-- Classification in `kill` (async_client.py lines 302-303):
`"not found" in error_str or "404" in error_str` on the lowercased message. -/
def isNotFoundMsg (msg : String) : Bool :=
  containsSub (lowerChars msg) (String.toList ("not found")) ||
    containsSub (lowerChars msg) (String.toList ("404"))

/-- Outcome of the provider's `AsyncSandbox.kill` for one sandbox id:
it either succeeds or raises an exception whose `str` is `msg`. -/
inductive TermOutcome : Type
  | success
  | failure (msg : String)
  deriving DecidableEq, Repr

/-- `kill` (async_client.py lines 289-305): `True` on success; a raised
exception whose lowercased message contains `"not found"` or `"404"` is
swallowed into `False`; any other exception is re-raised. -/
def kill (provider : String → TermOutcome) (sandbox_id : String) :
    Except String Bool :=
  match provider sandbox_id with
  | TermOutcome.success => Except.ok true
  | TermOutcome.failure msg =>
      if isNotFoundMsg msg then Except.ok false else Except.error msg

/-- A network round-trip to the provider made by `kill_all`: the fleet
listing, or one terminate attempt. -/
inductive PCall : Type
  | listing
  | terminate (sandbox_id : String)
  deriving DecidableEq, Repr

/-- The `for` loop of `kill_all` (async_client.py lines 323-327): one
`kill` per member in order, counting the `True` results; an exception
escaping `kill` propagates at once. Also records the terminate calls made. -/
def killLoop (provider : String → TermOutcome) :
    List String → List PCall × Except String ℕ
  | [] => ([], Except.ok 0)
  | sid :: rest =>
    match kill provider sid with
    | Except.ok true =>
        let r := killLoop provider rest
        (PCall.terminate sid :: r.1, r.2.map (· + 1))
    | Except.ok false =>
        let r := killLoop provider rest
        (PCall.terminate sid :: r.1, r.2)
    | Except.error e => ([PCall.terminate sid], Except.error e)

/-- `kill_all` (async_client.py lines 307-327). `fleet` is the listing the
provider would return; the confirmation gate is checked before the listing
round-trip, so a refused gate makes zero provider calls. The first
component is the trace of provider calls actually issued. -/
def kill_all (provider : String → TermOutcome) (fleet : List String)
    (confirm : Bool) : List PCall × Except String ℕ :=
  if ¬ confirm then
    ([], Except.error ("Must pass confirm=True to kill all sandboxes"))
  else
    let r := killLoop provider fleet
    (PCall.listing :: r.1, r.2)

/-! ## Metrics disambiguator (`async_client.py` `metrics`) -/

/-- A raw metric record as returned by the provider's `get_metrics`. -/
structure RawMetric : Type where
  cpu_count : ℤ
  cpu_used_pct : ℚ
  mem_total : ℕ
  mem_used : ℕ
  disk_total : ℕ
  disk_used : ℕ
  timestamp : ℤ
  deriving DecidableEq, Repr

/-- The per-record conversion in `metrics` (async_client.py lines 139-150). -/
def convertMetric (m : RawMetric) : SandboxMetrics :=
  { cpu_count := m.cpu_count
    cpu_pct := m.cpu_used_pct
    mem_total_mb := m.mem_total / (1024 * 1024)
    mem_used_mb := m.mem_used / (1024 * 1024)
    disk_total_mb := m.disk_total / (1024 * 1024)
    disk_used_mb := m.disk_used / (1024 * 1024)
    timestamp := m.timestamp }

/-- Return shape of `metrics`: `SandboxMetrics | list[SandboxMetrics]`. -/
inductive MetricsResult : Type
  | single (m : SandboxMetrics)
  | series (l : List SandboxMetrics)
  deriving DecidableEq, Repr

/-- `metrics` (async_client.py lines 120-155): convert every raw record,
then return the lone element when no time range was given and exactly one
record came back, the whole list otherwise. -/
def metrics (start stop : Option ℤ) (raw : List RawMetric) : MetricsResult :=
  let results := raw.map convertMetric
  match start, stop, results with
  | none, none, [m] => MetricsResult.single m
  | _, _, _ => MetricsResult.series results

/-! ## Listing and pagination engine (`async_client.py` `list_sandboxes`) -/

/-- A raw sandbox record from one page of the provider's paginator. -/
structure RawSandbox : Type where
  sandbox_id : String
  template_id : String
  name : Option String
  metadata : List (String × String)
  state : SandboxState
  started_at : ℤ
  end_at : ℤ
  cpu_count : ℤ
  memory_mb : ℤ
  deriving DecidableEq, Repr

/-- The per-record conversion in `list_sandboxes`
(async_client.py lines 74-87). -/
def convertSandbox (sbx : RawSandbox) : SandboxInfo :=
  { sandbox_id := sbx.sandbox_id
    template_id := sbx.template_id
    name := sbx.name
    metadata := sbx.metadata
    state := sbx.state
    started_at := sbx.started_at
    end_at := sbx.end_at
    cpu_count := sbx.cpu_count
    memory_mb := sbx.memory_mb }

/-- The pagination loop of `list_sandboxes` (async_client.py lines 68-94).
`pages` is the sequence of pages successive `next_items()` calls serve; an
empty listing is an empty first page. The `while items:` guard stops on an
empty page; otherwise the page's records are converted and appended, and
the next page is fetched only when `has_next` (more pages remain). -/
def list_sandboxes : List (List RawSandbox) → List SandboxInfo
  | [] => []
  | items :: rest =>
    if items.isEmpty then []
    else
      items.map convertSandbox ++
        (match rest with
          | [] => []
          | _ :: _ => list_sandboxes rest)

/-! ## Aggregator (`async_client.py` `summary`) -/

/-- Python `min(xs, key=k)` as a left fold: the accumulator is replaced
only on a strict key decrease, so the first occurrence of the minimal key
wins. -/
def pyMin {α : Type} (key : α → ℤ) : α → List α → α
  | acc, [] => acc
  | acc, x :: xs => pyMin key (if key x < key acc then x else acc) xs

/-- Python `max(xs, key=k)` as a left fold: the accumulator is replaced
only on a strict key increase, so the first occurrence of the maximal key
wins. -/
def pyMax {α : Type} (key : α → ℤ) : α → List α → α
  | acc, [] => acc
  | acc, x :: xs => pyMax key (if key acc < key x then x else acc) xs

/-- `min(sandboxes, key=...) if sandboxes else None`. -/
def pyMinList {α : Type} (key : α → ℤ) : List α → Option α
  | [] => none
  | x :: xs => some (pyMin key x xs)

/-- `max(sandboxes, key=...) if sandboxes else None`. -/
def pyMaxList {α : Type} (key : α → ℤ) : List α → Option α
  | [] => none
  | x :: xs => some (pyMax key x xs)

/-- `summary` (async_client.py lines 329-356) applied to the listing the
provider returned; `now` is the instant the derived `uptime` properties
are read at. -/
def summary (now : ℤ) (sandboxes : List SandboxInfo) : Summary :=
  let running := sandboxes.filter (fun s => decide (s.state = SandboxState.running))
  let paused := sandboxes.filter (fun s => decide (s.state = SandboxState.paused))
  let total_cpu := (sandboxes.map (fun s => s.cpu_count)).sum
  let total_memory := (sandboxes.map (fun s => s.memory_mb)).sum
  let oldest := pyMinList (fun s => s.started_at) sandboxes
  let newest := pyMaxList (fun s => s.started_at) sandboxes
  { running_count := running.length
    paused_count := paused.length
    total_count := sandboxes.length
    total_cpu := total_cpu
    total_memory_mb := total_memory
    oldest_sandbox_id := oldest.map (fun s => s.sandbox_id)
    oldest_uptime := oldest.map (fun s => s.uptime now)
    newest_sandbox_id := newest.map (fun s => s.sandbox_id)
    newest_uptime := newest.map (fun s => s.uptime now) }

/-! ## Auxiliary lemmas -/

lemma floor_le_roundHalfEven (q : ℚ) : ⌊q⌋ ≤ roundHalfEven q := by
  unfold roundHalfEven
  split_ifs <;> omega

lemma le_pyRound1_of_le {c : ℤ} {q : ℚ} (h : (c : ℚ) ≤ q) :
    (c : ℚ) ≤ pyRound1 q := by
  unfold pyRound1
  have h1 : (c * 10 : ℤ) ≤ ⌊q * 10⌋ := by
    rw [Int.le_floor]
    push_cast
    nlinarith
  have h2 : (c * 10 : ℤ) ≤ roundHalfEven (q * 10) :=
    le_trans h1 (floor_le_roundHalfEven _)
  have h3 : ((c * 10 : ℤ) : ℚ) ≤ (roundHalfEven (q * 10) : ℚ) := by
    exact_mod_cast h2
  push_cast at h3
  linarith

lemma length_filter_state (l : List SandboxInfo) :
    (l.filter (fun s => decide (s.state = SandboxState.running))).length +
      (l.filter (fun s => decide (s.state = SandboxState.paused))).length =
      l.length := by
  induction l with
  | nil => rfl
  | cons s t ih =>
    cases hs : s.state <;> simp [List.filter_cons, hs] <;> omega

/-! ## Derived predicates for the kill loop -/

/-- The provider outcome for `sid` makes `kill` re-raise: a failure whose
message is not classified not-found. -/
def abortsKill (provider : String → TermOutcome) (sid : String) : Bool :=
  match provider sid with
  | TermOutcome.success => false
  | TermOutcome.failure msg => ! isNotFoundMsg msg

/-- The provider outcome for `sid` makes `kill` return `True`. -/
def killSucceeds (provider : String → TermOutcome) (sid : String) : Bool :=
  match provider sid with
  | TermOutcome.success => true
  | TermOutcome.failure _ => false

lemma killLoop_ok (provider : String → TermOutcome) :
    ∀ fleet : List String, (∀ sid ∈ fleet, abortsKill provider sid = false) →
      (killLoop provider fleet).2 =
        Except.ok ((fleet.filter (fun sid => killSucceeds provider sid)).length) := by
  intro fleet
  induction fleet with
  | nil => intro _; rfl
  | cons sid rest ih =>
    intro h
    have hs := h sid (List.mem_cons_self sid rest)
    have hr := fun x hx => h x (List.mem_cons_of_mem sid hx)
    cases hp : provider sid with
    | success =>
      simp [killLoop, kill, hp, killSucceeds, List.filter_cons, ih hr, Except.map]
    | failure msg =>
      have hnf : isNotFoundMsg msg = true := by
        simpa [abortsKill, hp] using hs
      simp [killLoop, kill, hp, hnf, killSucceeds, List.filter_cons, ih hr, Except.map]

lemma killLoop_error (provider : String → TermOutcome) :
    ∀ (pre : List String) (sid : String) (post : List String) (msg : String),
      (∀ x ∈ pre, abortsKill provider x = false) →
      provider sid = TermOutcome.failure msg → isNotFoundMsg msg = false →
      (killLoop provider (pre ++ sid :: post)).2 = Except.error msg := by
  intro pre
  induction pre with
  | nil =>
    intro sid post msg _ hp hnf
    simp [killLoop, kill, hp, hnf]
  | cons x pre' ih =>
    intro sid post msg h hp hnf
    have hx := h x (List.mem_cons_self x pre')
    have hr := fun y hy => h y (List.mem_cons_of_mem x hy)
    cases hq : provider x with
    | success =>
      simp [killLoop, kill, hq, ih sid post msg hr hp hnf, Except.map]
    | failure m =>
      have hm : isNotFoundMsg m = true := by
        simpa [abortsKill, hq] using hx
      simp [killLoop, kill, hq, hm, ih sid post msg hr hp hnf, Except.map]

/-! ## Claim theorems -/

/-- C1 counterexample scenario: a fleet of three where terminating the second
member raises a non-not-found provider error and the other two succeed. -/
def providerBoom : String → TermOutcome := fun sid =>
  if sid = "sbx_b" then TermOutcome.failure ("ProviderError: boom")
  else TermOutcome.success

/-- C1 as stated is false: on a fleet of 3 where one kill fails with a
provider error (not a not-found) and two succeed, `kill_all(confirm=true)`
does not return 2 — the error propagates and aborts the batch. -/
theorem claim_C1_counterexample :
    (kill_all providerBoom (["sbx_a", "sbx_b", "sbx_c"]) true).2 =
      Except.error ("ProviderError: boom") ∧
    (kill_all providerBoom (["sbx_a", "sbx_b", "sbx_c"]) true).2 ≠
      Except.ok 2 := by
  have h1 : (kill_all providerBoom (["sbx_a", "sbx_b", "sbx_c"]) true).2 =
      Except.error ("ProviderError: boom") := by rfl
  refine ⟨h1, ?_⟩
  intro h
  rw [h1] at h
  exact Except.noConfusion h

/-- C1 amended: the confirmed `kill_all(confirm=true)` loop is best-effort
only across not-found failures. When no member's termination raises a
non-not-found provider error, the loop runs to completion and the returned
integer is exactly the number of members whose kill returned `true`; but the
first non-not-found provider failure propagates and aborts the batch. -/
theorem claim_C1_amended :
    (∀ (provider : String → TermOutcome) (fleet : List String),
      (∀ sid ∈ fleet, abortsKill provider sid = false) →
      (kill_all provider fleet true).2 =
        Except.ok ((fleet.filter (fun sid => killSucceeds provider sid)).length)) ∧
    (∀ (provider : String → TermOutcome) (pre : List String) (sid : String)
        (post : List String),
      (∀ x ∈ pre, abortsKill provider x = false) →
      abortsKill provider sid = true →
      ∃ msg, provider sid = TermOutcome.failure msg ∧ isNotFoundMsg msg = false ∧
        (kill_all provider (pre ++ sid :: post) true).2 = Except.error msg) := by
  constructor
  · intro provider fleet h
    simpa [kill_all] using killLoop_ok provider fleet h
  · intro provider pre sid post h habort
    cases hp : provider sid with
    | success => simp [abortsKill, hp] at habort
    | failure msg =>
      have hnf : isNotFoundMsg msg = false := by
        simpa [abortsKill, hp] using habort
      exact ⟨msg, rfl, hnf, by
        simpa [kill_all] using killLoop_error provider pre sid post msg h hp hnf⟩

/-- C1 witness scenario: a fleet of three where terminating the second member
fails with a not-found classification and the other two succeed. -/
def providerNF3 : String → TermOutcome := fun sid =>
  if sid = "sbx_b" then TermOutcome.failure ("sandbox not found")
  else TermOutcome.success

/-- Witness for the amended C1: with one not-found failure and two successes
the loop completes and the count is the 2 confirmed successes. -/
theorem claim_C1_witness :
    (kill_all providerNF3 (["sbx_a", "sbx_b", "sbx_c"]) true).2 = Except.ok 2 :=
  (claim_C1_amended.1 providerNF3 (["sbx_a", "sbx_b", "sbx_c"])
    (by decide)).trans (by rfl)

/-- C3: with no time range and exactly one provider record, `metrics` returns
the single converted snapshot; with no range and any other record count it
returns the full converted sequence; with a range it always returns the full
converted sequence, even of length 1. -/
theorem claim_C3_metrics_disambiguation :
    (∀ r : RawMetric,
      metrics none none ([r]) = MetricsResult.single (convertMetric r)) ∧
    (∀ raw : List RawMetric, raw.length ≠ 1 →
      metrics none none raw = MetricsResult.series (raw.map convertMetric)) ∧
    (∀ (start stop : Option ℤ) (raw : List RawMetric),
      start.isSome ∨ stop.isSome →
      metrics start stop raw = MetricsResult.series (raw.map convertMetric)) := by
  refine ⟨fun r => rfl, fun raw h => ?_, fun start stop raw h => ?_⟩
  · match raw with
    | [] => rfl
    | [a] => simp at h
    | a :: b :: t => rfl
  · match start, stop with
    | some s, _ => rfl
    | none, some e => rfl
    | none, none => simp at h

/-- A concrete raw metric record. -/
def rawMetricEx : RawMetric :=
  { cpu_count := 2
    cpu_used_pct := 37
    mem_total := 1073741824
    mem_used := 536870912
    disk_total := 2147483648
    disk_used := 0
    timestamp := 0 }

/-- Witness for C3: a supplied `start` forces the sequence shape even for a
single record. -/
theorem claim_C3_witness :
    metrics (some 0) none ([rawMetricEx]) =
      MetricsResult.series ([convertMetric rawMetricEx]) :=
  claim_C3_metrics_disambiguation.2.2 (some 0) none ([rawMetricEx])
    (Or.inl rfl)

/-- C2: `kill(sandbox_id)` returns `false` (raising no error) exactly when the
provider's termination failure message, lowercased, contains `"not found"` or
`"404"`; it returns `true` when the provider's terminate succeeds; and any
provider failure not classified as not-found propagates unchanged. -/
theorem claim_C2_kill_classification :
    ∀ (provider : String → TermOutcome) (sid : String),
      (provider sid = TermOutcome.success → kill provider sid = Except.ok true) ∧
      (∀ msg, provider sid = TermOutcome.failure msg → isNotFoundMsg msg = true →
        kill provider sid = Except.ok false) ∧
      (∀ msg, provider sid = TermOutcome.failure msg → isNotFoundMsg msg = false →
        kill provider sid = Except.error msg) := by
  intro provider sid
  refine ⟨fun h => by simp [kill, h], fun msg h hm => by simp [kill, h, hm],
    fun msg h hm => by simp [kill, h, hm]⟩

/-- Witness for C2: a provider whose terminate raises a message classified
as not-found makes `kill` return `false` without an error. -/
theorem claim_C2_witness :
    kill (fun _ => TermOutcome.failure ("sandbox not found")) ("sbx_a") =
      Except.ok false :=
  (claim_C2_kill_classification (fun _ => TermOutcome.failure ("sandbox not found"))
    ("sbx_a")).2.1 ("sandbox not found") rfl (by decide)

/-- C4: `kill_all` with `confirm = false` raises the invalid-argument error
before any provider operation: the trace of provider calls is empty (no
listing, no terminate) for every provider and fleet. -/
theorem claim_C4_confirm_gate :
    ∀ (provider : String → TermOutcome) (fleet : List String),
      kill_all provider fleet false =
        ([], Except.error ("Must pass confirm=True to kill all sandboxes")) := by
  intro provider fleet
  rfl

/-- C7: `running_count + paused_count = total_count` for every summary built
from a single listing snapshot. -/
theorem claim_C7_state_partition :
    ∀ (now : ℤ) (l : List SandboxInfo),
      (summary now l).running_count + (summary now l).paused_count =
        (summary now l).total_count := by
  intro now l
  simpa [summary] using length_filter_state l

/-- C9: the derived `time_remaining` equals `max (end_at - now) 0`, is never
negative, and is `0` whenever `end_at` lies in the past relative to `now`. -/
theorem claim_C9_time_remaining_nonneg :
    ∀ (now : ℤ) (s : SandboxInfo),
      s.time_remaining now = max (s.end_at - now) 0 ∧
      0 ≤ s.time_remaining now ∧
      (s.end_at < now → s.time_remaining now = 0) := by
  intro now s
  refine ⟨rfl, le_max_right _ _, fun h => ?_⟩
  simp only [SandboxInfo.time_remaining, max_eq_right_iff]
  omega

/-- A concrete sandbox whose `end_at` is in the past at evaluation time 10. -/
def sandboxPast : SandboxInfo :=
  { sandbox_id := "sbx_past"
    template_id := "tmpl"
    state := SandboxState.running
    started_at := 0
    end_at := 5
    cpu_count := 1
    memory_mb := 256 }

/-- Witness for C9: with `end_at = 5 < now = 10` the remaining time is `0`. -/
theorem claim_C9_witness : sandboxPast.time_remaining 10 = 0 :=
  (claim_C9_time_remaining_nonneg 10 sandboxPast).2.2 (by decide)

/-- C10: the timeout forwarded by `exec` and by `python` is the caller's
timeout when it is truthy, and `default_timeout` otherwise; in particular a
caller-supplied timeout of `0` is replaced by `default_timeout`. -/
theorem claim_C10_timeout_forwarding :
    ∀ default_timeout : ℤ,
      execForwardedTimeout none default_timeout = default_timeout ∧
      execForwardedTimeout (some 0) default_timeout = default_timeout ∧
      (∀ t : ℤ, t ≠ 0 → execForwardedTimeout (some t) default_timeout = t) ∧
      pythonForwardedTimeout none default_timeout = default_timeout ∧
      pythonForwardedTimeout (some 0) default_timeout = default_timeout ∧
      (∀ t : ℤ, t ≠ 0 → pythonForwardedTimeout (some t) default_timeout = t) := by
  intro d
  refine ⟨rfl, by simp [execForwardedTimeout, pyOrTimeout], fun t ht => ?_, rfl,
    by simp [pythonForwardedTimeout, pyOrTimeout], fun t ht => ?_⟩ <;>
    simp [execForwardedTimeout, pythonForwardedTimeout, pyOrTimeout, ht]

/-- Witness for C10: an explicit timeout of 30 with default 60 forwards 30. -/
theorem claim_C10_witness : execForwardedTimeout (some 30) 60 = 30 :=
  (claim_C10_timeout_forwarding 60).2.2.1 30 (by decide)

/-! ## Pagination lemmas and C5 -/

lemma list_sandboxes_nil : list_sandboxes [] = [] := rfl

lemma list_sandboxes_empty_page (rest : List (List RawSandbox)) :
    list_sandboxes ([] :: rest) = [] := by
  simp [list_sandboxes]

lemma list_sandboxes_cons (p : List RawSandbox) (rest : List (List RawSandbox))
    (hp : p ≠ []) (hr : rest ≠ []) :
    list_sandboxes (p :: rest) = p.map convertSandbox ++ list_sandboxes rest := by
  cases p with
  | nil => exact absurd rfl hp
  | cons a t =>
    cases rest with
    | nil => exact absurd rfl hr
    | cons q l => simp [list_sandboxes]

lemma list_sandboxes_last (p : List RawSandbox) (hp : p ≠ []) :
    list_sandboxes ([p]) = p.map convertSandbox := by
  cases p with
  | nil => exact absurd rfl hp
  | cons a t => simp [list_sandboxes]

/-- C5: the pagination loop accumulates every record of every served page in
arrival order when all pages are non-empty; a zero-item page ends the stream
even when more pages would follow; and an empty listing yields an empty
sequence, not an error. -/
theorem claim_C5_pagination :
    (∀ pages : List (List RawSandbox), (∀ p ∈ pages, p ≠ []) →
      list_sandboxes pages = pages.flatten.map convertSandbox) ∧
    (∀ pre rest : List (List RawSandbox), (∀ p ∈ pre, p ≠ []) →
      list_sandboxes (pre ++ [] :: rest) = pre.flatten.map convertSandbox) ∧
    list_sandboxes [] = [] ∧
    (∀ rest : List (List RawSandbox), list_sandboxes ([] :: rest) = []) := by
  have hfull : ∀ pages : List (List RawSandbox), (∀ p ∈ pages, p ≠ []) →
      list_sandboxes pages = pages.flatten.map convertSandbox := by
    intro pages
    induction pages with
    | nil => intro _; rfl
    | cons p ps ih =>
      intro h
      have hp := h p (List.mem_cons_self p ps)
      have hps := fun q hq => h q (List.mem_cons_of_mem p hq)
      cases ps with
      | nil => simp [list_sandboxes_last p hp]
      | cons q l =>
        rw [list_sandboxes_cons p (q :: l) hp (List.cons_ne_nil q l), ih hps]
        simp
  refine ⟨hfull, ?_, rfl, list_sandboxes_empty_page⟩
  intro pre
  induction pre with
  | nil => intro rest _; simp [list_sandboxes_empty_page]
  | cons p ps ih =>
    intro rest h
    have hp := h p (List.mem_cons_self p ps)
    have hps := fun q hq => h q (List.mem_cons_of_mem p hq)
    rw [List.cons_append,
      list_sandboxes_cons p (ps ++ [] :: rest) hp (by simp), ih rest hps]
    simp

/-- Two concrete raw sandbox records. -/
def rawSandboxA : RawSandbox :=
  { sandbox_id := "sbx_a"
    template_id := "tmpl"
    name := none
    metadata := []
    state := SandboxState.running
    started_at := 0
    end_at := 100
    cpu_count := 1
    memory_mb := 512 }

/-- A second raw record, on a later page. -/
def rawSandboxB : RawSandbox :=
  { rawSandboxA with sandbox_id := "sbx_b", started_at := 10 }

/-- Witness for C5: two non-empty pages are accumulated in arrival order. -/
theorem claim_C5_witness :
    list_sandboxes ([[rawSandboxA], [rawSandboxB]]) =
      ([[rawSandboxA], [rawSandboxB]] : List (List RawSandbox)).flatten.map
        convertSandbox :=
  claim_C5_pagination.1 ([[rawSandboxA], [rawSandboxB]]) (by decide)

/-! ## Percentage lemmas and C6 -/

/-- A metric with zero usage against a non-zero total. -/
def metricZeroUse : SandboxMetrics :=
  { cpu_count := 1
    cpu_pct := 0
    mem_total_mb := 1
    mem_used_mb := 0
    disk_total_mb := 1
    disk_used_mb := 0
    timestamp := 0 }

/-- A metric whose usage slightly exceeds its total: the ratio is 100.01%,
which the 1-decimal rounding brings back to exactly 100.0. -/
def metricOverCap : SandboxMetrics :=
  { cpu_count := 1
    cpu_pct := 0
    mem_total_mb := 10000
    mem_used_mb := 10001
    disk_total_mb := 10000
    disk_used_mb := 10001
    timestamp := 0 }

/-- C6 as stated is false on two counts: `mem_pct` is `0.0` for a metric whose
total is non-zero (so "equals 0.0 exactly when total is 0" fails in the
only-if direction), and a metric with `used > total` can have `mem_pct`
exactly `100.0`, not above `100` (the 1-decimal rounding eats the excess). -/
theorem claim_C6_counterexample :
    (metricZeroUse.mem_total_mb ≠ 0 ∧ metricZeroUse.mem_pct = 0) ∧
    (metricOverCap.mem_total_mb < metricOverCap.mem_used_mb ∧
      metricOverCap.mem_pct = 100 ∧ ¬ 100 < metricOverCap.mem_pct) := by
  refine ⟨⟨by decide, ?_⟩, by decide, ?_, ?_⟩
  · norm_num [metricZeroUse, SandboxMetrics.mem_pct, pyRound1, roundHalfEven]
  · norm_num [metricOverCap, SandboxMetrics.mem_pct, pyRound1, roundHalfEven]
  · norm_num [metricOverCap, SandboxMetrics.mem_pct, pyRound1, roundHalfEven]

/-- C6 amended: `mem_pct` (likewise `disk_pct`) is `0.0` whenever the total is
`0`, regardless of `used` (but may also be `0.0` for a non-zero total);
otherwise it is `used/total*100` rounded to one decimal place; the value is
never clamped, and `used > total` yields a percentage of at least `100`
(rounding may bring it to exactly `100.0`). -/
theorem claim_C6_amended :
    ∀ m : SandboxMetrics,
      (m.mem_total_mb = 0 → m.mem_pct = 0) ∧
      (m.mem_total_mb ≠ 0 →
        m.mem_pct = pyRound1 ((m.mem_used_mb : ℚ) / (m.mem_total_mb : ℚ) * 100)) ∧
      (m.mem_total_mb ≠ 0 → m.mem_total_mb < m.mem_used_mb → 100 ≤ m.mem_pct) ∧
      (m.disk_total_mb = 0 → m.disk_pct = 0) ∧
      (m.disk_total_mb ≠ 0 →
        m.disk_pct = pyRound1 ((m.disk_used_mb : ℚ) / (m.disk_total_mb : ℚ) * 100)) ∧
      (m.disk_total_mb ≠ 0 → m.disk_total_mb < m.disk_used_mb → 100 ≤ m.disk_pct) := by
  intro m
  have key : ∀ (total used : ℕ), total ≠ 0 → total < used →
      (100 : ℚ) ≤ pyRound1 ((used : ℚ) / (total : ℚ) * 100) := by
    intro total used ht hlt
    have htq : (0 : ℚ) < (total : ℚ) := by
      exact_mod_cast Nat.pos_of_ne_zero ht
    have hle : (total : ℚ) ≤ (used : ℚ) := by
      exact_mod_cast le_of_lt hlt
    have hratio : (1 : ℚ) ≤ (used : ℚ) / (total : ℚ) :=
      (one_le_div htq).mpr hle
    have h100 : ((100 : ℤ) : ℚ) ≤ (used : ℚ) / (total : ℚ) * 100 := by
      push_cast
      nlinarith
    simpa using le_pyRound1_of_le h100
  refine ⟨fun h => by simp [SandboxMetrics.mem_pct, h],
    fun h => by simp [SandboxMetrics.mem_pct, h],
    fun h hlt => ?_,
    fun h => by simp [SandboxMetrics.disk_pct, h],
    fun h => by simp [SandboxMetrics.disk_pct, h],
    fun h hlt => ?_⟩
  · have := key m.mem_total_mb m.mem_used_mb h hlt
    simpa [SandboxMetrics.mem_pct, h] using this
  · have := key m.disk_total_mb m.disk_used_mb h hlt
    simpa [SandboxMetrics.disk_pct, h] using this

/-- Witness for the amended C6: the over-capacity metric has a non-zero total,
`used > total`, and its percentage is at least 100. -/
theorem claim_C6_witness :
    metricOverCap.mem_total_mb ≠ 0 ∧
    metricOverCap.mem_total_mb < metricOverCap.mem_used_mb ∧
    100 ≤ metricOverCap.mem_pct :=
  ⟨by decide, by decide,
    (claim_C6_amended metricOverCap).2.2.1 (by decide) (by decide)⟩

/-! ## Extremum lemmas and C8 -/

lemma pyMin_spec {α : Type} (key : α → ℤ) :
    ∀ (xs : List α) (acc : α),
      (pyMin key acc xs = acc ∧ ∀ x ∈ xs, key acc ≤ key x) ∨
      (∃ l1 m l2, xs = l1 ++ m :: l2 ∧ pyMin key acc xs = m ∧ key m < key acc ∧
        (∀ x ∈ l1, key m < key x) ∧ (∀ x ∈ xs, key m ≤ key x)) := by
  intro xs
  induction xs with
  | nil => intro acc; left; exact ⟨rfl, by simp⟩
  | cons x t ih =>
    intro acc
    by_cases hx : key x < key acc
    · have hstep : pyMin key acc (x :: t) = pyMin key x t := by
        simp [pyMin, hx]
      rcases ih x with ⟨heq, hall⟩ | ⟨l1, m, l2, hsplit, heq, hlt, hpre, hall⟩
      · right
        refine ⟨[], x, t, rfl, by rw [hstep, heq], hx, by simp, ?_⟩
        intro y hy
        rcases List.mem_cons.mp hy with rfl | hy'
        · exact le_refl _
        · exact hall y hy'
      · right
        refine ⟨x :: l1, m, l2, by simp [hsplit], by rw [hstep, heq],
          lt_trans hlt hx, ?_, ?_⟩
        · intro y hy
          rcases List.mem_cons.mp hy with rfl | hy'
          · exact hlt
          · exact hpre y hy'
        · intro y hy
          rcases List.mem_cons.mp hy with rfl | hy'
          · exact le_of_lt hlt
          · exact hall y hy'
    · have hstep : pyMin key acc (x :: t) = pyMin key acc t := by
        simp [pyMin, hx]
      rcases ih acc with ⟨heq, hall⟩ | ⟨l1, m, l2, hsplit, heq, hlt, hpre, hall⟩
      · left
        refine ⟨by rw [hstep, heq], ?_⟩
        intro y hy
        rcases List.mem_cons.mp hy with rfl | hy'
        · exact le_of_not_lt hx
        · exact hall y hy'
      · right
        refine ⟨x :: l1, m, l2, by simp [hsplit], by rw [hstep, heq], hlt, ?_, ?_⟩
        · intro y hy
          rcases List.mem_cons.mp hy with rfl | hy'
          · exact lt_of_lt_of_le hlt (le_of_not_lt hx)
          · exact hpre y hy'
        · intro y hy
          rcases List.mem_cons.mp hy with rfl | hy'
          · exact le_trans (le_of_lt hlt) (le_of_not_lt hx)
          · exact hall y hy'

lemma pyMax_spec {α : Type} (key : α → ℤ) :
    ∀ (xs : List α) (acc : α),
      (pyMax key acc xs = acc ∧ ∀ x ∈ xs, key x ≤ key acc) ∨
      (∃ l1 m l2, xs = l1 ++ m :: l2 ∧ pyMax key acc xs = m ∧ key acc < key m ∧
        (∀ x ∈ l1, key x < key m) ∧ (∀ x ∈ xs, key x ≤ key m)) := by
  intro xs
  induction xs with
  | nil => intro acc; left; exact ⟨rfl, by simp⟩
  | cons x t ih =>
    intro acc
    by_cases hx : key acc < key x
    · have hstep : pyMax key acc (x :: t) = pyMax key x t := by
        simp [pyMax, hx]
      rcases ih x with ⟨heq, hall⟩ | ⟨l1, m, l2, hsplit, heq, hlt, hpre, hall⟩
      · right
        refine ⟨[], x, t, rfl, by rw [hstep, heq], hx, by simp, ?_⟩
        intro y hy
        rcases List.mem_cons.mp hy with rfl | hy'
        · exact le_refl _
        · exact hall y hy'
      · right
        refine ⟨x :: l1, m, l2, by simp [hsplit], by rw [hstep, heq],
          lt_trans hx hlt, ?_, ?_⟩
        · intro y hy
          rcases List.mem_cons.mp hy with rfl | hy'
          · exact hlt
          · exact hpre y hy'
        · intro y hy
          rcases List.mem_cons.mp hy with rfl | hy'
          · exact le_of_lt hlt
          · exact hall y hy'
    · have hstep : pyMax key acc (x :: t) = pyMax key acc t := by
        simp [pyMax, hx]
      rcases ih acc with ⟨heq, hall⟩ | ⟨l1, m, l2, hsplit, heq, hlt, hpre, hall⟩
      · left
        refine ⟨by rw [hstep, heq], ?_⟩
        intro y hy
        rcases List.mem_cons.mp hy with rfl | hy'
        · exact le_of_not_lt hx
        · exact hall y hy'
      · right
        refine ⟨x :: l1, m, l2, by simp [hsplit], by rw [hstep, heq], hlt, ?_, ?_⟩
        · intro y hy
          rcases List.mem_cons.mp hy with rfl | hy'
          · exact lt_of_le_of_lt (le_of_not_lt hx) hlt
          · exact hpre y hy'
        · intro y hy
          rcases List.mem_cons.mp hy with rfl | hy'
          · exact le_trans (le_of_not_lt hx) (le_of_lt hlt)
          · exact hall y hy'

lemma pyMinList_spec {α : Type} (key : α → ℤ) (l : List α) (hl : l ≠ []) :
    ∃ l1 m l2, l = l1 ++ m :: l2 ∧ pyMinList key l = some m ∧
      (∀ x ∈ l, key m ≤ key x) ∧ (∀ x ∈ l1, key m < key x) := by
  cases l with
  | nil => exact absurd rfl hl
  | cons x t =>
    rcases pyMin_spec key t x with ⟨heq, hall⟩ | ⟨l1, m, l2, hsplit, heq, hlt, hpre, hall⟩
    · refine ⟨[], x, t, rfl, by simp [pyMinList, heq], ?_, by simp⟩
      intro y hy
      rcases List.mem_cons.mp hy with rfl | hy'
      · exact le_refl _
      · exact hall y hy'
    · refine ⟨x :: l1, m, l2, by simp [hsplit], by simp [pyMinList, heq], ?_, ?_⟩
      · intro y hy
        rcases List.mem_cons.mp hy with rfl | hy'
        · exact le_of_lt hlt
        · exact hall y (hsplit ▸ hy')
      · intro y hy
        rcases List.mem_cons.mp hy with rfl | hy'
        · exact hlt
        · exact hpre y hy'

lemma pyMaxList_spec {α : Type} (key : α → ℤ) (l : List α) (hl : l ≠ []) :
    ∃ l1 m l2, l = l1 ++ m :: l2 ∧ pyMaxList key l = some m ∧
      (∀ x ∈ l, key x ≤ key m) ∧ (∀ x ∈ l1, key x < key m) := by
  cases l with
  | nil => exact absurd rfl hl
  | cons x t =>
    rcases pyMax_spec key t x with ⟨heq, hall⟩ | ⟨l1, m, l2, hsplit, heq, hlt, hpre, hall⟩
    · refine ⟨[], x, t, rfl, by simp [pyMaxList, heq], ?_, by simp⟩
      intro y hy
      rcases List.mem_cons.mp hy with rfl | hy'
      · exact le_refl _
      · exact hall y hy'
    · refine ⟨x :: l1, m, l2, by simp [hsplit], by simp [pyMaxList, heq], ?_, ?_⟩
      · intro y hy
        rcases List.mem_cons.mp hy with rfl | hy'
        · exact le_of_lt hlt
        · exact hall y (hsplit ▸ hy')
      · intro y hy
        rcases List.mem_cons.mp hy with rfl | hy'
        · exact hlt
        · exact hpre y hy'

lemma summary_oldest_eq (now : ℤ) (l : List SandboxInfo) :
    (summary now l).oldest_sandbox_id =
      (pyMinList (fun s => s.started_at) l).map (fun s => s.sandbox_id) ∧
    (summary now l).oldest_uptime =
      (pyMinList (fun s => s.started_at) l).map (fun s => s.uptime now) ∧
    (summary now l).newest_sandbox_id =
      (pyMaxList (fun s => s.started_at) l).map (fun s => s.sandbox_id) ∧
    (summary now l).newest_uptime =
      (pyMaxList (fun s => s.started_at) l).map (fun s => s.uptime now) := by
  refine ⟨rfl, rfl, rfl, rfl⟩

/-- C8: on a non-empty listing, `summary` reports as oldest the first
occurrence of the minimal `started_at` and as newest the first occurrence of
the maximal `started_at` (elements strictly before the chosen one have a
strictly worse key, so provider order breaks ties in favour of the first
occurrence); on an empty listing all four identity and uptime fields are
null; and the cpu/memory fields are plain totals over the listing. -/
theorem claim_C8_oldest_newest :
    (∀ now : ℤ,
      (summary now []).oldest_sandbox_id = none ∧
      (summary now []).oldest_uptime = none ∧
      (summary now []).newest_sandbox_id = none ∧
      (summary now []).newest_uptime = none) ∧
    (∀ (now : ℤ) (l : List SandboxInfo), l ≠ [] →
      (∃ l1 m l2, l = l1 ++ m :: l2 ∧
        (summary now l).oldest_sandbox_id = some m.sandbox_id ∧
        (summary now l).oldest_uptime = some (m.uptime now) ∧
        (∀ x ∈ l, m.started_at ≤ x.started_at) ∧
        (∀ x ∈ l1, m.started_at < x.started_at)) ∧
      (∃ l1 m l2, l = l1 ++ m :: l2 ∧
        (summary now l).newest_sandbox_id = some m.sandbox_id ∧
        (summary now l).newest_uptime = some (m.uptime now) ∧
        (∀ x ∈ l, x.started_at ≤ m.started_at) ∧
        (∀ x ∈ l1, x.started_at < m.started_at))) ∧
    (∀ (now : ℤ) (l : List SandboxInfo),
      (summary now l).total_cpu = (l.map (fun s => s.cpu_count)).sum ∧
      (summary now l).total_memory_mb = (l.map (fun s => s.memory_mb)).sum) := by
  refine ⟨fun now => ⟨rfl, rfl, rfl, rfl⟩, ?_, fun now l => ⟨rfl, rfl⟩⟩
  intro now l hl
  obtain ⟨ho1, ho2, hn1, hn2⟩ := summary_oldest_eq now l
  constructor
  · obtain ⟨l1, m, l2, hsplit, heq, hall, hpre⟩ :=
      pyMinList_spec (fun s => s.started_at) l hl
    exact ⟨l1, m, l2, hsplit, by rw [ho1, heq]; rfl, by rw [ho2, heq]; rfl,
      hall, hpre⟩
  · obtain ⟨l1, m, l2, hsplit, heq, hall, hpre⟩ :=
      pyMaxList_spec (fun s => s.started_at) l hl
    exact ⟨l1, m, l2, hsplit, by rw [hn1, heq]; rfl, by rw [hn2, heq]; rfl,
      hall, hpre⟩

/-- A concrete running sandbox started at time 0. -/
def sandboxEarly : SandboxInfo :=
  { sandbox_id := "sbx_old"
    template_id := "tmpl"
    state := SandboxState.paused
    started_at := 0
    end_at := 100
    cpu_count := 2
    memory_mb := 512 }

/-- A concrete sandbox that started later and ties are not involved. -/
def sandboxLate : SandboxInfo :=
  { sandbox_id := "sbx_new"
    template_id := "tmpl"
    state := SandboxState.running
    started_at := 50
    end_at := 200
    cpu_count := 4
    memory_mb := 1024 }

/-- Witness for C8: instantiating the non-empty branch on a two-element
listing. -/
theorem claim_C8_witness :
    (∃ l1 m l2, ([sandboxEarly, sandboxLate] : List SandboxInfo) = l1 ++ m :: l2 ∧
      (summary 60 ([sandboxEarly, sandboxLate])).oldest_sandbox_id = some m.sandbox_id ∧
      (summary 60 ([sandboxEarly, sandboxLate])).oldest_uptime = some (m.uptime 60) ∧
      (∀ x ∈ ([sandboxEarly, sandboxLate] : List SandboxInfo),
        m.started_at ≤ x.started_at) ∧
      (∀ x ∈ l1, m.started_at < x.started_at)) ∧
    (∃ l1 m l2, ([sandboxEarly, sandboxLate] : List SandboxInfo) = l1 ++ m :: l2 ∧
      (summary 60 ([sandboxEarly, sandboxLate])).newest_sandbox_id = some m.sandbox_id ∧
      (summary 60 ([sandboxEarly, sandboxLate])).newest_uptime = some (m.uptime 60) ∧
      (∀ x ∈ ([sandboxEarly, sandboxLate] : List SandboxInfo),
        x.started_at ≤ m.started_at) ∧
      (∀ x ∈ l1, x.started_at < m.started_at)) :=
  claim_C8_oldest_newest.2.1 60 ([sandboxEarly, sandboxLate])
    (by simp)

end SandboxInspector
